import Mathlib

set_option maxHeartbeats 1000000

/-!
# Verification of the voice-recorder core (Penitant/app_voice_recorder)

A shallow embedding of the recording/playback lifecycle code:

* `src/services/AudioService.ts`   — the `AudioService` singleton
* `src/hooks/useAudioRecorder.ts`  — the recorder hook (registry + codec)
* `src/hooks/useAudioPlayer.ts`    — the player hook

Modelling conventions:

* JavaScript strings are modelled as lists of characters (`JSStr`).
* JavaScript numbers that can be `NaN` are modelled as `Option Int`
  (`none` = `NaN`); `new Date(NaN)` (an invalid date) is likewise `none`.
* Every `await`ed platform call (expo-av / expo-file-system) is a
  suspension point whose outcome is an explicit input (an environment
  field), and the call itself is recorded in an effect trace (`Eff`),
  so that "no capture call is made" and friends are statable.
* React `useState` setters are modelled as functional record updates;
  each hook function maps a state and an environment to a new state
  plus the trace of platform effects it performed.
* `console.error` / `console.warn` are modelled as `Eff.logError` /
  `Eff.logWarn` with a short tag taken from the source message;
  purely informational `console.log` lines are not modelled.
-/

/-- A JavaScript string, modelled as its list of characters. -/
abbrev JSStr := List Char

/-- Coerce a Lean string literal into the model's string type. -/
def jstr (s : String) : JSStr := s.data

/-- `String.prototype.split` with a single-character separator:
`"a__b".split('_') = ["a","","b"]`, `"".split('_') = [""]`. -/
def splitChar (sep : Char) : JSStr → List JSStr
  | [] => [[]]
  | c :: cs =>
    match splitChar sep cs with
    | [] => [[]]
    | g :: gs => if c = sep then [] :: g :: gs else (c :: g) :: gs

/-- `String.prototype.replace` with a string pattern replaces only the
first occurrence of the pattern (here: deletes it, as the code always
replaces with `''`). -/
def replaceFirst (pat : JSStr) : JSStr → JSStr
  | [] => []
  | c :: cs =>
    if pat.isPrefixOf (c :: cs) then (c :: cs).drop pat.length
    else c :: replaceFirst pat cs

/-- Decimal value of a digit string (used under an all-digits guard). -/
def digitsToNat (s : JSStr) : Nat :=
  s.foldl (fun acc c => acc * 10 + (c.toNat - 48)) 0

/-- JavaScript `Number(string)` restricted to the integer fragment the
program can produce: the empty string is `0`, an optional sign followed
by decimal digits is that integer, and anything else (in particular any
string with a non-digit such as `"7.wav"`) is `NaN` (`none`). -/
def jsNumber (s : JSStr) : Option Int :=
  match s with
  | [] => some 0
  | '-' :: rest =>
    if rest ≠ [] ∧ rest.all Char.isDigit then some (-(digitsToNat rest : Int)) else none
  | '+' :: rest =>
    if rest ≠ [] ∧ rest.all Char.isDigit then some (digitsToNat rest : Int) else none
  | _ =>
    if s.all Char.isDigit then some (digitsToNat s : Int) else none

/-- JavaScript `parseInt(string)`: an optional sign followed by the
longest digit prefix; `NaN` (`none`) when there is no digit. -/
def jsParseInt (s : JSStr) : Option Int :=
  match s with
  | '-' :: rest =>
    let ds := rest.takeWhile Char.isDigit
    if ds = [] then none else some (-(digitsToNat ds : Int))
  | '+' :: rest =>
    let ds := rest.takeWhile Char.isDigit
    if ds = [] then none else some (digitsToNat ds : Int)
  | _ =>
    let ds := s.takeWhile Char.isDigit
    if ds = [] then none else some (digitsToNat ds : Int)

/-- Rendering of an integer by a template literal (`` `${t}` ``). -/
def jsIntStr (i : Int) : JSStr := (toString i).data

section StableSort

variable {α : Type}

/-- The comparator `(a, b) => b.createdAt.getTime() - a.createdAt.getTime()`
returns a value `> 0` (so the sort must place `a` after `b`).  When either
date is invalid the subtraction is `NaN`, which is not `> 0`. -/
def cmpGt (key : α → Option Int) (a b : α) : Bool :=
  match key a, key b with
  | some x, some y => decide (x < y)
  | _, _ => false

/-- One insertion step of the stable sort: `x` (earlier in the input)
is moved past exactly those elements that must sort strictly before it. -/
def insertDesc (key : α → Option Int) (x : α) : List α → List α
  | [] => [x]
  | y :: ys => if cmpGt key x y then y :: insertDesc key x ys else x :: y :: ys

/-- `Array.prototype.sort` with the descending-by-`createdAt` comparator.
JavaScript's sort is stable; it is modelled as a stable insertion sort
(faithful whenever the comparator is consistent, i.e. all dates valid). -/
def sortByTimeDesc (key : α → Option Int) : List α → List α
  | [] => []
  | x :: xs => insertDesc key x (sortByTimeDesc key xs)

theorem insertDesc_perm (key : α → Option Int) (x : α) (l : List α) :
    (insertDesc key x l).Perm (x :: l) := by
  induction l with
  | nil => exact List.Perm.refl _
  | cons y ys ih =>
    by_cases h : cmpGt key x y
    · simp only [insertDesc, h, if_pos]
      exact (ih.cons y).trans (List.Perm.swap x y ys)
    · simp only [insertDesc, h, if_neg, not_false_iff]
      exact List.Perm.refl _

theorem sortByTimeDesc_perm (key : α → Option Int) (l : List α) :
    (sortByTimeDesc key l).Perm l := by
  induction l with
  | nil => exact List.Perm.refl _
  | cons x xs ih =>
    exact (insertDesc_perm key x (sortByTimeDesc key xs)).trans (ih.cons x)

theorem filter_insertDesc (key : α → Option Int) (t : Int) (x : α) (l : List α) :
    (insertDesc key x l).filter (fun a => key a == some t)
      = if key x == some t then
          x :: l.filter (fun a => key a == some t)
        else l.filter (fun a => key a == some t) := by
  induction l with
  | nil =>
    by_cases hx : key x == some t <;> simp [insertDesc, hx, List.filter]
  | cons y ys ih =>
    by_cases h : cmpGt key x y
    · have hy : (key y == some t) = true → (key x == some t) = false := by
        intro hyt
        unfold cmpGt at h
        cases hkx : key x with
        | none => simp [hkx] at h
        | some kx =>
          cases hky : key y with
          | none => simp [hkx, hky] at h
          | some ky =>
            simp only [hkx, hky, decide_eq_true_eq] at h
            have : ky = t := by simpa [hky] using hyt
            subst this
            simp [hkx]
            omega
      by_cases hx : key x == some t
      · have hyf : (key y == some t) = false := by
          cases hyt : (key y == some t) with
          | false => rfl
          | true => exact absurd hx (by simp [hy hyt])
        simp [insertDesc, h, List.filter, hyf, ih, hx]
      · simp only [insertDesc, h, if_pos, List.filter]
        cases hyt : (key y == some t) with
        | false => simpa [hyt, hx] using ih
        | true => simp only [ih, hx, if_neg, Bool.false_eq_true, not_false_iff]
    · by_cases hx : key x == some t <;>
        simp [insertDesc, h, List.filter, hx]

theorem filter_sortByTimeDesc (key : α → Option Int) (t : Int) (l : List α) :
    (sortByTimeDesc key l).filter (fun a => key a == some t)
      = l.filter (fun a => key a == some t) := by
  induction l with
  | nil => rfl
  | cons x xs ih =>
    by_cases hx : key x == some t <;>
      simp [sortByTimeDesc, filter_insertDesc, hx, List.filter, ih]

theorem pairwise_insertDesc (key : α → Option Int) (x : α) (l : List α)
    (hx : (key x).isSome) (hl : ∀ a ∈ l, (key a).isSome)
    (h : l.Pairwise (fun a b => (key b).getD 0 ≤ (key a).getD 0)) :
    (insertDesc key x l).Pairwise (fun a b => (key b).getD 0 ≤ (key a).getD 0) := by
  induction l with
  | nil => simp [insertDesc]
  | cons y ys ih =>
    obtain ⟨kx, hkx⟩ := Option.isSome_iff_exists.mp hx
    obtain ⟨ky, hky⟩ := Option.isSome_iff_exists.mp (hl y (by simp))
    by_cases hc : cmpGt key x y
    · have hxy : kx < ky := by
        unfold cmpGt at hc
        simpa [hkx, hky] using hc
      simp only [insertDesc, hc, if_pos]
      have hys : (insertDesc key x ys).Pairwise (fun a b => (key b).getD 0 ≤ (key a).getD 0) :=
        ih (fun a ha => hl a (by simp [ha])) h.tail
      refine List.Pairwise.cons ?_ hys
      intro b hb
      have hb' : b = x ∨ b ∈ ys :=
        List.mem_cons.mp ((List.Perm.mem_iff (insertDesc_perm key x ys)).mp hb)
      rcases hb' with rfl | hb'
      · simp [hkx, hky]; omega
      · exact List.rel_of_pairwise_cons h hb'
    · have hxy : ky ≤ kx := by
        unfold cmpGt at hc
        simpa [hkx, hky] using hc
      simp only [insertDesc, hc, if_neg, not_false_iff]
      refine List.Pairwise.cons ?_ h
      intro b hb
      rcases List.mem_cons.mp hb with rfl | hb'
      · simp [hkx, hky]; omega
      · have := List.rel_of_pairwise_cons h hb'
        simp only [hky, Option.getD_some] at this
        simp [hkx]
        omega

theorem pairwise_sortByTimeDesc (key : α → Option Int) (l : List α)
    (hl : ∀ a ∈ l, (key a).isSome) :
    (sortByTimeDesc key l).Pairwise (fun a b => (key b).getD 0 ≤ (key a).getD 0) := by
  induction l with
  | nil => simp [sortByTimeDesc]
  | cons x xs ih =>
    refine pairwise_insertDesc key x (sortByTimeDesc key xs) (hl x (by simp)) ?_ ?_
    · intro a ha
      exact hl a (by
        have := (sortByTimeDesc_perm key xs).mem_iff.mp ha
        simp [this])
    · exact ih (fun a ha => hl a (by simp [ha]))

end StableSort

/-! ## Platform effects and data model -/

/-- One call into the platform audio/file subsystem (expo-av /
expo-file-system), or a reported error/warning. -/
inductive Eff
  | requestPermission
  | setAudioMode
  | getInfo (path : JSStr)
  | mkdir (path : JSStr)
  | readDir (path : JSStr)
  | copy (src dest : JSStr)
  | deleteFile (path : JSStr)
  | createRecording
  | stopUnload
  | createSound (uri : JSStr)
  | soundPlay
  | soundStop
  | soundUnload
  | logError (tag : String)
  | logWarn (tag : String)
deriving DecidableEq

/-- Result of `FileSystem.getInfoAsync` (the fields the code reads). -/
structure FileInfo where
  fexists : Bool
  size : Nat
deriving DecidableEq

/-- `FileSystem.documentDirectory + 'recordings/'`; the platform-provided
document directory is modelled as a fixed base path. -/
def recordingsDir : JSStr := jstr "file:///documents/recordings/"

/-- The native `Audio.Recording` handle: the fields the code reads after
the capture is finalized (`getURI()`, `getStatusAsync().durationMillis`). -/
structure RecHandle where
  uri : Option JSStr
  durationMillis : Option Int
deriving DecidableEq

/-- `AudioFile` from `src/services/AudioService.ts`. -/
structure AudioFile where
  id : JSStr
  uri : JSStr
  filename : JSStr
  duration : Option Int
  createdAt : Option Int
deriving DecidableEq

/-- `Recording` from `src/hooks/useAudioRecorder.ts`. -/
structure Recording where
  id : JSStr
  uri : JSStr
  fileName : JSStr
  duration : Option Int
  createdAt : Option Int
deriving DecidableEq

/-- The `AudioService` singleton's mutable fields. -/
structure SvcState where
  recording : Option RecHandle
  sound : Option Nat
deriving DecidableEq

/-- `Audio.PermissionResponse` (the field the code reads). -/
structure PermissionResponse where
  granted : Bool
deriving DecidableEq

/-- The `useAudioRecorder` hook's state variables. -/
structure HookRecState where
  recording : Option RecHandle
  recordings : List Recording
  isRecording : Bool
  permissionResponse : Option PermissionResponse
  recordingDuration : Int
  startTime : Option Int
deriving DecidableEq

/-- The `useAudioPlayer` hook's state variables. -/
structure PlayerState where
  sound : Option Nat
  playingId : Option JSStr
  isPlaying : Bool
  position : Int
  duration : Int
  error : Option String
deriving DecidableEq

namespace useAudioRecorder

/-- The filename synthesized by `stopRecording`
(`` `${id}_${timestamp}_${Math.round(duration)}.wav` ``); the recorded
duration is an integer millisecond count (a difference of `Date.now()`
readings), so `Math.round` is the identity and `d` is taken as `Int`. -/
def encodeFileName (id : JSStr) (t d : Int) : JSStr :=
  id ++ jstr "_" ++ jsIntStr t ++ jstr "_" ++ jsIntStr d ++ jstr ".wav"

/-- The filename-parsing block inlined in `loadRecordings`
(`src/hooks/useAudioRecorder.ts:68-96`): split on `'_'`;
`id = parts[0]`, `timestamp = Number(parts[1].replace('.wav', ''))`,
`duration = parts.length > 2 ? Number(parts[2]) : 0`.  When `parts[1]`
is `undefined` (no underscore), `.replace` throws a `TypeError` which the
`catch` turns into the fallbacks `id = fileName`, `timestamp = Date.now()`,
`duration = 0`.  A non-numeric segment does not throw: `Number` just
returns `NaN`. -/
def decodeFileName (fileName : JSStr) (now : Int) : Recording :=
  match splitChar '_' fileName with
  | p0 :: p1 :: rest =>
    { id := p0
      uri := recordingsDir ++ fileName
      fileName := fileName
      duration := match rest with
        | [] => some 0
        | p2 :: _ => jsNumber p2
      createdAt := jsNumber (replaceFirst (jstr ".wav") p1) }
  | _ =>
    { id := fileName
      uri := recordingsDir ++ fileName
      fileName := fileName
      duration := some 0
      createdAt := some now }

/-- The decoded (unsorted) entry list `loadRecordings` builds from a
directory listing: keep the `.wav` files, parse each name. -/
def decodedList (files : List JSStr) (now : Int) : List Recording :=
  (files.filter (fun f => (jstr ".wav").isSuffixOf f)).map
    (fun f => decodeFileName f now)

/-- `loadRecordings` (`src/hooks/useAudioRecorder.ts:54-103`): ensure the
directory exists (creating it yields an empty registry), list it, decode
every `.wav` name, and store the list sorted by `createdAt` descending.
`dirExists`/`files` are the filesystem's answers, `now` the clock. -/
def loadRecordings (dirExists : Bool) (files : List JSStr) (now : Int) :
    List Recording × List Eff :=
  if dirExists then
    let wav := files.filter (fun f => (jstr ".wav").isSuffixOf f)
    (sortByTimeDesc (fun r => r.createdAt) (decodedList files now),
     [Eff.getInfo recordingsDir, Eff.readDir recordingsDir]
       ++ wav.map (fun f => Eff.getInfo (recordingsDir ++ f)))
  else
    ([], [Eff.getInfo recordingsDir, Eff.mkdir recordingsDir])

end useAudioRecorder

namespace AudioService

/-- The id/timestamp extraction inlined in `getRecordings`
(`src/services/AudioService.ts:150-163`):
`id = filename.split('_')[1]?.split('.')[0] || Date.now().toString()`
(the `||` fallback also fires on the falsy empty string), then
`timestamp = parseInt(id)`; the duration is deferred to playback (`0`). -/
def decodeFile (filename : JSStr) (now : Int) : AudioFile :=
  let idStr :=
    match splitChar '_' filename with
    | _ :: p1 :: _ =>
      match splitChar '.' p1 with
      | x :: _ => if x.isEmpty then jsIntStr now else x
      | [] => jsIntStr now
    | _ => jsIntStr now
  { id := idStr
    uri := recordingsDir ++ filename
    filename := filename
    duration := some 0
    createdAt := jsParseInt idStr }

/-- The decoded (unsorted) list `getRecordings` builds. -/
def decodedList (files : List JSStr) (now : Int) : List AudioFile :=
  (files.filter (fun f => (jstr ".wav").isSuffixOf f)).map
    (fun f => decodeFile f now)

/-- `getRecordings` (`src/services/AudioService.ts:139-170`): `init()`,
list the directory, keep `.wav` files (returning early when there are
none), decode each and sort by `createdAt` descending. -/
def getRecordings (dirExists : Bool) (files : List JSStr) (now : Int) :
    List AudioFile × List Eff :=
  let tInit := [Eff.getInfo recordingsDir]
    ++ (if dirExists then [] else [Eff.mkdir recordingsDir])
  let wav := files.filter (fun f => (jstr ".wav").isSuffixOf f)
  if wav.isEmpty then ([], tInit ++ [Eff.readDir recordingsDir])
  else
    (sortByTimeDesc (fun a => a.createdAt) (decodedList files now),
     tInit ++ [Eff.readDir recordingsDir]
       ++ wav.map (fun f => Eff.getInfo (recordingsDir ++ f)))

end AudioService

/-! ## Recorder operations -/

namespace AudioService

/-- Environment for `AudioService.startRecording`: the permission answer,
whether the directory already exists, whether `Audio.Recording.createAsync`
succeeds, and the handle it yields. -/
structure StartEnv where
  granted : Bool
  dirExists : Bool
  createOk : Bool
  newRec : RecHandle
deriving DecidableEq

/-- `startRecording` (`src/services/AudioService.ts:32-79`): request the
permission and throw (caught, `false`) when it is not granted; otherwise
configure the audio mode, `init()` the directory and create the native
recording.  A failure of `createAsync` is caught and yields `false` with
the singleton untouched. -/
def startRecording (st : SvcState) (env : StartEnv) : Bool × SvcState × List Eff :=
  if env.granted then
    let t1 := [Eff.requestPermission, Eff.setAudioMode, Eff.getInfo recordingsDir]
      ++ (if env.dirExists then [] else [Eff.mkdir recordingsDir])
      ++ [Eff.createRecording]
    if env.createOk then (true, { st with recording := some env.newRec }, t1)
    else (false, st, t1 ++ [Eff.logError "Failed to start recording"])
  else
    (false, st, [Eff.requestPermission, Eff.logError "Failed to start recording"])

/-- `stopRecording` (`src/services/AudioService.ts:82-136`): a no-op
returning `null` when no recording is held; otherwise finalize the
capture, drop the handle, and bail out (`null`) when the URI is missing,
the temporary file is missing or empty, the copy throws, or the copied
file cannot be confirmed.  On success return the `AudioFile`; the
filename embeds one `Date.now()` reading (`now`) while `createdAt` is a
separate `new Date()` reading (`now2`). -/
def stopRecording (st : SvcState) (srcInfo : FileInfo) (now now2 : Int)
    (copyOk : Bool) (destInfo : FileInfo) : Option AudioFile × SvcState × List Eff :=
  match st.recording with
  | none => (none, st, [])
  | some rec =>
    let st1 : SvcState := { st with recording := none }
    match rec.uri with
    | none => (none, st1, [Eff.stopUnload])
    | some uri =>
      if !srcInfo.fexists || srcInfo.size == 0 then
        (none, st1, [Eff.stopUnload, Eff.getInfo uri,
                     Eff.logError "Recording file is missing or empty"])
      else
        let filename := jstr "recording_" ++ jsIntStr now ++ jstr ".wav"
        let dest := recordingsDir ++ filename
        if !copyOk then
          (none, st1, [Eff.stopUnload, Eff.getInfo uri, Eff.copy uri dest,
                       Eff.logError "Failed to stop recording"])
        else if !destInfo.fexists then
          (none, st1, [Eff.stopUnload, Eff.getInfo uri, Eff.copy uri dest,
                       Eff.getInfo dest, Eff.logError "Failed to save recording"])
        else
          (some { id := jsIntStr now
                  uri := dest
                  filename := filename
                  duration := some (rec.durationMillis.getD 0)
                  createdAt := some now2 },
           st1, [Eff.stopUnload, Eff.getInfo uri, Eff.copy uri dest, Eff.getInfo dest])

end AudioService

namespace useAudioRecorder

/-- Environment for the hook's `startRecording`. -/
structure StartEnv where
  createOk : Bool
  newRec : RecHandle
  now : Int
deriving DecidableEq

/-- Whether `permissionResponse && !permissionResponse.granted` holds. -/
def deniedResponse (st : HookRecState) : Bool :=
  match st.permissionResponse with
  | some p => !p.granted
  | none => false

/-- `startRecording` (`src/hooks/useAudioRecorder.ts:105-149`): return at
once when a permission response is held and not granted; otherwise set
the audio mode and create the native recording, then record the start
time and flip `isRecording`.  A thrown `createAsync` is caught with no
state change. -/
def startRecording (st : HookRecState) (env : StartEnv) : HookRecState × List Eff :=
  if deniedResponse st then (st, [])
  else if env.createOk then
    ({ st with startTime := some env.now, recording := some env.newRec,
               isRecording := true },
     [Eff.setAudioMode, Eff.createRecording])
  else
    (st, [Eff.setAudioMode, Eff.createRecording,
          Eff.logError "Failed to start recording"])

/-- Environment for the hook's `stopRecording`: outcomes of the platform
calls it awaits, the two `Date.now()` readings taken when synthesizing
the filename (`t1` for `id`, `t2` for the embedded timestamp), and the
filesystem answers for the `loadRecordings` it triggers at the end. -/
structure StopEnv where
  stopUnloadOk : Bool
  srcInfo : FileInfo
  t1 : Int
  t2 : Int
  dirExists : Bool
  copyOk : Bool
  destInfo : FileInfo
  loadDirExists : Bool
  files : List JSStr
  nowR : Int
deriving DecidableEq

/-- `stopRecording` (`src/hooks/useAudioRecorder.ts:151-212`): a no-op
when no recording is held.  Otherwise clear `isRecording`/`startTime`,
finalize the capture, and return early (leaving the `recording` state
untouched) when the URI is missing or the temporary file is missing or
empty.  On the main path synthesize `<id>_<timestamp>_<duration>.wav`
from two fresh `Date.now()` readings and the captured tick duration,
ensure the directory, copy the capture there, read back the destination
(log only — a missing copy does not abort), reload the registry and
clear the handle.  Any thrown `await` is caught, clearing `isRecording`
and `recording`. -/
def stopRecording (st : HookRecState) (env : StopEnv) : HookRecState × List Eff :=
  match st.recording with
  | none => (st, [])
  | some rec =>
    let dur := st.recordingDuration
    let st1 := { st with isRecording := false, startTime := none }
    if !env.stopUnloadOk then
      ({ st1 with recording := none },
       [Eff.stopUnload, Eff.logError "Failed to stop recording"])
    else
      match rec.uri with
      | none => (st1, [Eff.stopUnload, Eff.logError "No recording URI available"])
      | some uri =>
        if !env.srcInfo.fexists || env.srcInfo.size == 0 then
          (st1, [Eff.stopUnload, Eff.getInfo uri,
                 Eff.logError "Recording file is missing or empty"])
        else
          let fileName := encodeFileName (jsIntStr env.t1) env.t2 dur
          let dest := recordingsDir ++ fileName
          let t0 := [Eff.stopUnload, Eff.getInfo uri, Eff.getInfo recordingsDir]
            ++ (if env.dirExists then [] else [Eff.mkdir recordingsDir])
          if !env.copyOk then
            ({ st1 with recording := none },
             t0 ++ [Eff.copy uri dest, Eff.logError "Failed to stop recording"])
          else
            let load := loadRecordings env.loadDirExists env.files env.nowR
            ({ st1 with recording := none, recordings := load.1 },
             t0 ++ [Eff.copy uri dest, Eff.getInfo dest] ++ load.2)

/-- `deleteRecording` (`src/hooks/useAudioRecorder.ts:214-224`): find the
entry by id; when found, delete its file and filter it out of the
registry.  `FileSystem.deleteAsync` throws when the file is absent
(`delOk = false`): the `catch` logs and leaves the registry untouched. -/
def deleteRecording (st : HookRecState) (id : JSStr) (delOk : Bool) :
    HookRecState × List Eff :=
  match st.recordings.find? (fun r => r.id == id) with
  | none => (st, [])
  | some r =>
    if delOk then
      ({ st with recordings := st.recordings.filter (fun x => x.id != id) },
       [Eff.deleteFile r.uri])
    else
      (st, [Eff.deleteFile r.uri, Eff.logError "Failed to delete recording"])

end useAudioRecorder

/-! ## Player operations -/

namespace useAudioPlayer

/-- Environment for `playSound`: whether `getInfoAsync` threw (the catch
only logs and control falls through to the load), its result otherwise,
whether `Audio.Sound.createAsync` succeeds, and the handle it yields. -/
structure PlayEnv where
  infoThrew : Bool
  info : FileInfo
  createOk : Bool
  newSound : Nat
deriving DecidableEq

/-- `playSound` (`src/hooks/useAudioPlayer.ts:48-94`): clear the error,
check that the file exists and is non-empty (surfacing an error and
returning without touching anything else when it is not), configure the
audio session, unload any current sound, then create the new sound with
`shouldPlay: true`.  A thrown `createAsync` is caught: error set,
`isPlaying` false, `playingId` cleared. -/
def playSound (st : PlayerState) (rec : Recording) (env : PlayEnv) :
    PlayerState × List Eff :=
  let st0 := { st with error := none }
  if !env.infoThrew && (!env.info.fexists || env.info.size == 0) then
    ({ st0 with error := some "File does not exist or is empty" },
     [Eff.getInfo rec.uri])
  else
    let tChk := [Eff.getInfo rec.uri]
      ++ (if env.infoThrew then [Eff.logError "Error checking file"] else [])
      ++ [Eff.setAudioMode]
      ++ (match st.sound with | some _ => [Eff.soundUnload] | none => [])
    if env.createOk then
      ({ st0 with sound := some env.newSound, playingId := some rec.id,
                  isPlaying := true },
       tChk ++ [Eff.createSound rec.uri])
    else
      ({ st0 with isPlaying := false, playingId := none,
                  error := some "Playback error" },
       tChk ++ [Eff.createSound rec.uri, Eff.logError "Error playing sound"])

/-- `stopSound` (`src/hooks/useAudioPlayer.ts:146-157`): a no-op without
a sound; otherwise `stopAsync` (never `unloadAsync` — the handle object
stays in the `sound` state), then clear `isPlaying`/`playingId`/position.
A thrown `stopAsync` is caught with no state change. -/
def stopSound (st : PlayerState) (stopOk : Bool) : PlayerState × List Eff :=
  match st.sound with
  | none => (st, [])
  | some _ =>
    if stopOk then
      ({ st with isPlaying := false, playingId := none, position := 0 },
       [Eff.soundStop])
    else
      (st, [Eff.soundStop, Eff.logError "Error stopping sound"])

end useAudioPlayer

namespace AudioService

/-- Environment for `playRecording`. -/
structure SvcPlayEnv where
  info : FileInfo
  createOk : Bool
  newSound : Nat
deriving DecidableEq

/-- `playRecording` (`src/services/AudioService.ts:173-209`): unload any
current sound first, then check only that the file exists (no size
check); a missing file yields `false` before any load, otherwise the
audio mode is set and the sound created and played.  A thrown call is
caught and yields `false`. -/
def playRecording (st : SvcState) (uri : JSStr) (env : SvcPlayEnv) :
    Bool × SvcState × List Eff :=
  let st1 := if st.sound.isSome then { st with sound := none } else st
  let t1 := if st.sound.isSome then [Eff.soundUnload] else ([] : List Eff)
  if !env.info.fexists then
    (false, st1, t1 ++ [Eff.getInfo uri, Eff.logError "Audio file not found"])
  else if env.createOk then
    (true, { st1 with sound := some env.newSound },
     t1 ++ [Eff.getInfo uri, Eff.setAudioMode, Eff.createSound uri, Eff.soundPlay])
  else
    (false, st1,
     t1 ++ [Eff.getInfo uri, Eff.setAudioMode, Eff.createSound uri,
            Eff.logError "Failed to play recording"])

/-- `stopPlayback` (`src/services/AudioService.ts:212-222`): a no-op
without a sound; otherwise stop, unload and drop the handle.  A throw is
caught (logged) before the handle is dropped, so it then stays held. -/
def stopPlayback (st : SvcState) (ok : Bool) : SvcState × List Eff :=
  match st.sound with
  | none => (st, [])
  | some _ =>
    if ok then ({ st with sound := none }, [Eff.soundStop, Eff.soundUnload])
    else (st, [Eff.soundStop, Eff.logError "Error stopping playback"])

/-- `deleteRecording` (`src/services/AudioService.ts:225-245`): stop any
current playback first, then verify the file exists — when it does not,
warn and return `false` without deleting anything; otherwise delete it.
A thrown `deleteAsync` is caught and yields `false`. -/
def deleteRecording (st : SvcState) (uri : JSStr) (info : FileInfo)
    (stopOk delOk : Bool) : Bool × SvcState × List Eff :=
  let stopped := if st.sound.isSome then stopPlayback st stopOk else (st, [])
  let st1 := stopped.1
  let t1 := stopped.2
  if !info.fexists then
    (false, st1, t1 ++ [Eff.getInfo uri,
                        Eff.logWarn "File does not exist, nothing to delete"])
  else if delOk then
    (true, st1, t1 ++ [Eff.getInfo uri, Eff.deleteFile uri])
  else
    (false, st1, t1 ++ [Eff.getInfo uri, Eff.deleteFile uri,
                        Eff.logError "Failed to delete recording"])

end AudioService

/-! ## Claims -/

/-- C1: the claim states `decode(encode(id, t, d)) = {id, t, d}` for every
delimiter-free `id` and non-negative `t`, `d`.  The code violates it: the
decoder strips the `.wav` extension only from the timestamp segment, so
the duration segment of an encoded name is `"<d>.wav"` and
`Number("7.wav")` is `NaN`.  At `id = "a"`, `t = 5`, `d = 7` the encoded
name is `"a_5_7.wav"`; `id` and `t` round-trip but the decoded duration
is `NaN` (`none`), not `7` — the spec's intent (the duration is encoded
precisely so the registry can recover it) makes this a slip in the code. -/
theorem c1_round_trip_loses_duration :
    (useAudioRecorder.decodeFileName
        (useAudioRecorder.encodeFileName (jstr "a") 5 7) 0).id = jstr "a"
    ∧ (useAudioRecorder.decodeFileName
        (useAudioRecorder.encodeFileName (jstr "a") 5 7) 0).createdAt = some 5
    ∧ (useAudioRecorder.decodeFileName
        (useAudioRecorder.encodeFileName (jstr "a") 5 7) 0).duration = none
    ∧ (useAudioRecorder.decodeFileName
        (useAudioRecorder.encodeFileName (jstr "a") 5 7) 0).duration ≠ some 7 := by
  decide

/-- C10: stopping with no active recording session is a safe no-op in
both implementations: the hook returns with state untouched and no
platform call; the service returns `null` likewise. -/
theorem c10_stop_from_idle_noop :
    (∀ (st : HookRecState) (env : useAudioRecorder.StopEnv),
      st.recording = none → useAudioRecorder.stopRecording st env = (st, []))
    ∧ (∀ (st : SvcState) (srcInfo : FileInfo) (now now2 : Int)
        (copyOk : Bool) (destInfo : FileInfo),
      st.recording = none →
      AudioService.stopRecording st srcInfo now now2 copyOk destInfo
        = (none, st, [])) := by
  constructor
  · intro st env h
    simp [useAudioRecorder.stopRecording, h]
  · intro st srcInfo now now2 copyOk destInfo h
    simp [AudioService.stopRecording, h]

/-- Witness for `c10_stop_from_idle_noop` at a concrete idle state. -/
theorem c10_stop_from_idle_noop_witness :
    useAudioRecorder.stopRecording
        { recording := none, recordings := [], isRecording := false,
          permissionResponse := none, recordingDuration := 0, startTime := none }
        { stopUnloadOk := true, srcInfo := { fexists := true, size := 3 },
          t1 := 1, t2 := 1, dirExists := true, copyOk := true,
          destInfo := { fexists := true, size := 3 }, loadDirExists := true,
          files := [], nowR := 0 }
      = ({ recording := none, recordings := [], isRecording := false,
           permissionResponse := none, recordingDuration := 0, startTime := none },
         [])
    ∧ AudioService.stopRecording { recording := none, sound := none }
        { fexists := true, size := 3 } 1 1 true { fexists := true, size := 3 }
      = (none, { recording := none, sound := none }, []) :=
  ⟨c10_stop_from_idle_noop.1 _ _ rfl, c10_stop_from_idle_noop.2 _ _ _ _ _ _ rfl⟩

/-- C5: starting a recording while microphone permission is known to be
denied fails fast.  The service re-requests the permission, sees it
denied and returns `false` having made no capture call; the hook's guard
(`permissionResponse && !permissionResponse.granted`) returns at once
with no platform call at all. -/
theorem c5_start_denied_fails_fast :
    (∀ (st : SvcState) (env : AudioService.StartEnv), env.granted = false →
      AudioService.startRecording st env
        = (false, st, [Eff.requestPermission,
                       Eff.logError "Failed to start recording"])
      ∧ Eff.createRecording ∉ (AudioService.startRecording st env).2.2)
    ∧ (∀ (st : HookRecState) (env : useAudioRecorder.StartEnv)
        (p : PermissionResponse),
      st.permissionResponse = some p → p.granted = false →
      useAudioRecorder.startRecording st env = (st, [])
      ∧ Eff.createRecording ∉ (useAudioRecorder.startRecording st env).2) := by
  constructor
  · intro st env h
    refine ⟨by simp [AudioService.startRecording, h], ?_⟩
    simp [AudioService.startRecording, h]
  · intro st env p hp hg
    have hd : useAudioRecorder.deniedResponse st = true := by
      simp [useAudioRecorder.deniedResponse, hp, hg]
    refine ⟨by simp [useAudioRecorder.startRecording, hd], ?_⟩
    simp [useAudioRecorder.startRecording, hd]

/-- Witness for `c5_start_denied_fails_fast` at concrete denied states. -/
theorem c5_start_denied_fails_fast_witness :
    (AudioService.startRecording { recording := none, sound := none }
        { granted := false, dirExists := true, createOk := true,
          newRec := { uri := none, durationMillis := none } }
      = (false, { recording := none, sound := none },
         [Eff.requestPermission, Eff.logError "Failed to start recording"]))
    ∧ useAudioRecorder.startRecording
        { recording := none, recordings := [], isRecording := false,
          permissionResponse := some { granted := false },
          recordingDuration := 0, startTime := none }
        { createOk := true, newRec := { uri := none, durationMillis := none },
          now := 9 }
      = ({ recording := none, recordings := [], isRecording := false,
           permissionResponse := some { granted := false },
           recordingDuration := 0, startTime := none }, []) :=
  ⟨(c5_start_denied_fails_fast.1 _ _ rfl).1,
   (c5_start_denied_fails_fast.2 _ _ { granted := false } rfl rfl).1⟩

/-- A string without the separator splits into a single segment. -/
theorem splitChar_no_sep (sep : Char) (s : JSStr) (h : sep ∉ s) :
    splitChar sep s = [s] := by
  induction s with
  | nil => rfl
  | cons c cs ih =>
    have hc : c ≠ sep := fun e => h (by simp [e])
    have hcs : splitChar sep cs = [cs] := ih (fun hm => h (by simp [hm]))
    simp [splitChar, hcs, hc]

/-- Decoding preserves the stored filename (both branches copy it). -/
theorem decodeFileName_fileName (f : JSStr) (n : Int) :
    (useAudioRecorder.decodeFileName f n).fileName = f := by
  unfold useAudioRecorder.decodeFileName
  split <;> rfl

/-- The service decoder likewise preserves the stored filename. -/
theorem decodeFile_filename (f : JSStr) (n : Int) :
    (AudioService.decodeFile f n).filename = f := rfl

/-- C3 counterexample: on `"a_b.wav"` the timestamp segment is present
but non-numeric, yet no exception is thrown, so the claimed fallback
(`id =` the whole filename) does not happen: the decoded id is the first
segment `"a"` and `createdAt` is an invalid date (`NaN`), refuting the
claim that any parse failure falls back to `id = name`. -/
theorem c3_counterexample_non_numeric_segment :
    (useAudioRecorder.decodeFileName (jstr "a_b.wav") 99).id ≠ jstr "a_b.wav"
    ∧ (useAudioRecorder.decodeFileName (jstr "a_b.wav") 99).id = jstr "a"
    ∧ (useAudioRecorder.decodeFileName (jstr "a_b.wav") 99).createdAt = none := by
  decide

/-- C3 (amended): decoding is total and never drops a file — every listed
`.wav` filename yields a registry entry carrying exactly that filename,
in the hook registry and in the service registry alike — and the full
fallback (`id = name`, `createdAt = now`, `duration = 0`) fires exactly
for names with no underscore at all (where `parts[1].replace` throws),
such as `"garbage.wav"`; a present but non-numeric segment instead
yields the first segment as id and `NaN` values. -/
theorem c3_amended_never_dropped_and_fallback :
    ∀ (files : List JSStr) (now : Int),
    (∀ f ∈ files, (jstr ".wav").isSuffixOf f = true →
      ∃ r ∈ (useAudioRecorder.loadRecordings true files now).1, r.fileName = f)
    ∧ (∀ f ∈ files, (jstr ".wav").isSuffixOf f = true →
      ∃ a ∈ (AudioService.getRecordings true files now).1, a.filename = f)
    ∧ (∀ name : JSStr, '_' ∉ name →
      useAudioRecorder.decodeFileName name now
        = { id := name, uri := recordingsDir ++ name, fileName := name,
            duration := some 0, createdAt := some now }) := by
  intro files now
  refine ⟨?_, ?_, ?_⟩
  · intro f hf hsuf
    refine ⟨useAudioRecorder.decodeFileName f now, ?_,
            decodeFileName_fileName f now⟩
    have h1 : useAudioRecorder.decodeFileName f now
        ∈ useAudioRecorder.decodedList files now :=
      List.mem_map_of_mem _ (List.mem_filter.mpr ⟨hf, hsuf⟩)
    have h2 : (useAudioRecorder.loadRecordings true files now).1
        = sortByTimeDesc (fun r => r.createdAt)
            (useAudioRecorder.decodedList files now) := rfl
    rw [h2]
    exact (sortByTimeDesc_perm _ _).mem_iff.mpr h1
  · intro f hf hsuf
    have hw : f ∈ files.filter (fun f => (jstr ".wav").isSuffixOf f) :=
      List.mem_filter.mpr ⟨hf, hsuf⟩
    have hne : (files.filter (fun f => (jstr ".wav").isSuffixOf f)).isEmpty
        = false := by
      cases he : (files.filter (fun f => (jstr ".wav").isSuffixOf f)).isEmpty
      · rfl
      · rw [List.isEmpty_iff] at he
        rw [he] at hw
        cases hw
    refine ⟨AudioService.decodeFile f now, ?_, decodeFile_filename f now⟩
    have h1 : AudioService.decodeFile f now
        ∈ AudioService.decodedList files now :=
      List.mem_map_of_mem _ hw
    have h2 : (AudioService.getRecordings true files now).1
        = sortByTimeDesc (fun a => a.createdAt)
            (AudioService.decodedList files now) := by
      unfold AudioService.getRecordings
      simp only [hne]
      rfl
    rw [h2]
    exact (sortByTimeDesc_perm _ _).mem_iff.mpr h1
  · intro name hn
    unfold useAudioRecorder.decodeFileName
    rw [splitChar_no_sep '_' name hn]

/-- Witness for `c3_amended_never_dropped_and_fallback` on the listing
`["garbage.wav"]`: the malformed name is kept and fully falls back. -/
theorem c3_amended_witness :
    (∃ r ∈ (useAudioRecorder.loadRecordings true [jstr "garbage.wav"] 99).1,
       r.fileName = jstr "garbage.wav")
    ∧ useAudioRecorder.decodeFileName (jstr "garbage.wav") 99
        = { id := jstr "garbage.wav",
            uri := recordingsDir ++ jstr "garbage.wav",
            fileName := jstr "garbage.wav",
            duration := some 0, createdAt := some 99 } :=
  ⟨(c3_amended_never_dropped_and_fallback [jstr "garbage.wav"] 99).1
      (jstr "garbage.wav") (by decide) (by decide),
   (c3_amended_never_dropped_and_fallback [jstr "garbage.wav"] 99).2.2
      (jstr "garbage.wav") (by decide)⟩

/-- C2 counterexample: a successful stop through the service persists
`"recording_5.wav"` (with clip id `"5"`): the name has only two
underscore-segments instead of three, and its first segment
(`"recording"`) is not the id, so it is not of the canonical
`<id>_<createdAtMillis>_<durationMillis>.<ext>` form the claim states
for every successful stop. -/
theorem c2_counterexample_service_filename :
    (AudioService.stopRecording
        { recording := some { uri := some (jstr "file:///tmp/rec.tmp"),
                              durationMillis := some 1200 },
          sound := none }
        { fexists := true, size := 10 } 5 6 true
        { fexists := true, size := 10 }).1
      = some { id := jstr "5",
               uri := recordingsDir ++ jstr "recording_5.wav",
               filename := jstr "recording_5.wav",
               duration := some 1200, createdAt := some 6 }
    ∧ (splitChar '_' (jstr "recording_5.wav")).length = 2
    ∧ (splitChar '_' (jstr "recording_5.wav")).head? ≠ some (jstr "5") := by
  decide

/-- C2 (amended): on a successful stop the hook persists the capture
under `<id>_<timestamp>_<roundedDuration>.wav` where `id` and
`timestamp` are two consecutive `Date.now()` readings taken at commit
time (equal whenever the clock does not tick in between) and the
duration is the elapsed tick value, and it clears its handle; the
service instead persists `recording_<timestamp>.wav`, whose embedded
timestamp equals the returned clip id, and returns a clip descriptor
only when the copy has been confirmed to exist. -/
theorem c2_amended_commit_filenames :
    (∀ (st : HookRecState) (env : useAudioRecorder.StopEnv)
       (rec : RecHandle) (uri : JSStr),
      st.recording = some rec → rec.uri = some uri →
      env.stopUnloadOk = true → env.srcInfo.fexists = true →
      env.srcInfo.size ≠ 0 → env.copyOk = true →
      Eff.copy uri (recordingsDir ++ useAudioRecorder.encodeFileName
          (jsIntStr env.t1) env.t2 st.recordingDuration)
        ∈ (useAudioRecorder.stopRecording st env).2
      ∧ (useAudioRecorder.stopRecording st env).1.recording = none)
    ∧ (∀ (st : SvcState) (srcInfo destInfo : FileInfo) (now now2 : Int)
        (rec : RecHandle) (uri : JSStr),
      st.recording = some rec → rec.uri = some uri →
      srcInfo.fexists = true → srcInfo.size ≠ 0 → destInfo.fexists = true →
      (AudioService.stopRecording st srcInfo now now2 true destInfo).1
        = some { id := jsIntStr now
                 uri := recordingsDir
                   ++ (jstr "recording_" ++ jsIntStr now ++ jstr ".wav")
                 filename := jstr "recording_" ++ jsIntStr now ++ jstr ".wav"
                 duration := some (rec.durationMillis.getD 0)
                 createdAt := some now2 })
    ∧ (∀ (st : SvcState) (srcInfo destInfo : FileInfo) (now now2 : Int)
        (copyOk : Bool),
      destInfo.fexists = false →
      (AudioService.stopRecording st srcInfo now now2 copyOk destInfo).1
        = none) := by
  refine ⟨?_, ?_, ?_⟩
  · intro st env rec uri h1 h2 h3 h4 h5 h6
    have hcond : (!env.srcInfo.fexists || env.srcInfo.size == 0) = false := by
      simp [h4, h5]
    constructor
    · simp [useAudioRecorder.stopRecording, h1, h2, h3, h6, hcond]
    · simp [useAudioRecorder.stopRecording, h1, h2, h3, h6, hcond]
  · intro st srcInfo destInfo now now2 rec uri h1 h2 h3 h4 h5
    have hcond : (!srcInfo.fexists || srcInfo.size == 0) = false := by
      simp [h3, h4]
    simp [AudioService.stopRecording, h1, h2, h5, hcond]
  · intro st srcInfo destInfo now now2 copyOk hdest
    unfold AudioService.stopRecording
    split
    · rfl
    · split
      · rfl
      · split
        · rfl
        · split
          · rfl
          · split
            · rfl
            · simp_all

/-- Witness for `c2_amended_commit_filenames` at concrete commits. -/
theorem c2_amended_commit_filenames_witness :
    (Eff.copy (jstr "file:///tmp/r.3gp")
        (recordingsDir ++ useAudioRecorder.encodeFileName (jsIntStr 10) 11 2500)
      ∈ (useAudioRecorder.stopRecording
          { recording := some { uri := some (jstr "file:///tmp/r.3gp"),
                                durationMillis := none },
            recordings := [], isRecording := true, permissionResponse := none,
            recordingDuration := 2500, startTime := some 1 }
          { stopUnloadOk := true, srcInfo := { fexists := true, size := 4 },
            t1 := 10, t2 := 11, dirExists := true, copyOk := true,
            destInfo := { fexists := true, size := 4 },
            loadDirExists := true, files := [], nowR := 0 }).2)
    ∧ (AudioService.stopRecording
        { recording := some { uri := some (jstr "file:///tmp/rec.tmp"),
                              durationMillis := some 7 }, sound := none }
        { fexists := true, size := 4 } 10 11 true
        { fexists := true, size := 4 }).1
      = some { id := jsIntStr 10
               uri := recordingsDir
                 ++ (jstr "recording_" ++ jsIntStr 10 ++ jstr ".wav")
               filename := jstr "recording_" ++ jsIntStr 10 ++ jstr ".wav"
               duration := some 7
               createdAt := some 11 }
    ∧ (AudioService.stopRecording
        { recording := some { uri := some (jstr "file:///tmp/rec.tmp"),
                              durationMillis := some 7 }, sound := none }
        { fexists := true, size := 4 } 10 11 true
        { fexists := false, size := 0 }).1 = none :=
  ⟨(c2_amended_commit_filenames.1 _ _ _ _ rfl rfl rfl rfl (by decide) rfl).1,
   c2_amended_commit_filenames.2.1 _ _ _ _ _
     { uri := some (jstr "file:///tmp/rec.tmp"), durationMillis := some 7 } _
     rfl rfl rfl (by decide) rfl,
   c2_amended_commit_filenames.2.2 _ _ _ _ _ _ rfl⟩

/-- C4: stopping when the temporary capture file is missing or empty
aborts the commit in both implementations: the service returns `null`
with its handle cleared; the hook ends with `isRecording` false and
`startTime` cleared (its session reads as idle) and an untouched
registry.  In both, the produced trace is exactly finalize-capture,
read-back, error-log — the capture was already finalized by
`stopAndUnloadAsync` (so no active capture remains), no copy is ever
attempted, no clip is registered, and the error is surfaced. -/
theorem c4_stop_missing_or_empty_aborts :
    (∀ (st : SvcState) (srcInfo destInfo : FileInfo) (now now2 : Int)
       (copyOk : Bool) (rec : RecHandle) (uri : JSStr),
      st.recording = some rec → rec.uri = some uri →
      (srcInfo.fexists = false ∨ srcInfo.size = 0) →
      (AudioService.stopRecording st srcInfo now now2 copyOk destInfo).1 = none
      ∧ (AudioService.stopRecording st srcInfo now now2 copyOk destInfo).2.1.recording
          = none
      ∧ (AudioService.stopRecording st srcInfo now now2 copyOk destInfo).2.2
          = [Eff.stopUnload, Eff.getInfo uri,
             Eff.logError "Recording file is missing or empty"])
    ∧ (∀ (st : HookRecState) (env : useAudioRecorder.StopEnv)
        (rec : RecHandle) (uri : JSStr),
      st.recording = some rec → rec.uri = some uri → env.stopUnloadOk = true →
      (env.srcInfo.fexists = false ∨ env.srcInfo.size = 0) →
      (useAudioRecorder.stopRecording st env).1.isRecording = false
      ∧ (useAudioRecorder.stopRecording st env).1.startTime = none
      ∧ (useAudioRecorder.stopRecording st env).1.recordings = st.recordings
      ∧ (useAudioRecorder.stopRecording st env).2
          = [Eff.stopUnload, Eff.getInfo uri,
             Eff.logError "Recording file is missing or empty"]) := by
  constructor
  · intro st srcInfo destInfo now now2 copyOk rec uri h1 h2 h3
    have hcond : (!srcInfo.fexists || srcInfo.size == 0) = true := by
      rcases h3 with h | h <;> simp [h]
    refine ⟨?_, ?_, ?_⟩ <;> simp [AudioService.stopRecording, h1, h2, hcond]
  · intro st env rec uri h1 h2 h3 h4
    have hcond : (!env.srcInfo.fexists || env.srcInfo.size == 0) = true := by
      rcases h4 with h | h <;> simp [h]
    refine ⟨?_, ?_, ?_, ?_⟩ <;>
      simp [useAudioRecorder.stopRecording, h1, h2, h3, hcond]

/-- Witness for `c4_stop_missing_or_empty_aborts` on an empty capture. -/
theorem c4_stop_missing_or_empty_aborts_witness :
    ((AudioService.stopRecording
        { recording := some { uri := some (jstr "file:///tmp/rec.tmp"),
                              durationMillis := some 7 }, sound := none }
        { fexists := true, size := 0 } 10 11 true
        { fexists := true, size := 0 }).1 = none)
    ∧ ((useAudioRecorder.stopRecording
        { recording := some { uri := some (jstr "file:///tmp/r.3gp"),
                              durationMillis := none },
          recordings := [], isRecording := true, permissionResponse := none,
          recordingDuration := 2500, startTime := some 1 }
        { stopUnloadOk := true, srcInfo := { fexists := false, size := 0 },
          t1 := 10, t2 := 11, dirExists := true, copyOk := true,
          destInfo := { fexists := true, size := 4 },
          loadDirExists := true, files := [], nowR := 0 }).1.isRecording
      = false) :=
  ⟨(c4_stop_missing_or_empty_aborts.1 _ _ _ _ _ _ _ _ rfl rfl
      (Or.inr rfl)).1,
   (c4_stop_missing_or_empty_aborts.2 _ _ _ _ rfl rfl rfl (Or.inl rfl)).1⟩

/-- C6 counterexample: the service's play validates only existence, not
size.  For an existing but empty file it proceeds: the native load
(`Audio.Sound.createAsync`) is attempted and the call even reports
success — refuting "no native load is attempted" for empty files. -/
theorem c6_counterexample_empty_file_loaded :
    Eff.createSound (jstr "f.wav")
      ∈ (AudioService.playRecording { recording := none, sound := none }
          (jstr "f.wav")
          { info := { fexists := true, size := 0 }, createOk := true,
            newSound := 1 }).2.2
    ∧ (AudioService.playRecording { recording := none, sound := none }
        (jstr "f.wav")
        { info := { fexists := true, size := 0 }, createOk := true,
          newSound := 1 }).1 = true := by
  decide

/-- C6 (amended): the hook's play validates existence *and* size before
loading — on failure it surfaces an error and returns with every other
state field untouched (`playingId` stays `null` when it was `null`) and
a trace of just the file check, so no load and no session configuration
happen; the service's play rejects only *missing* files without a load
(an existing empty file still gets loaded). -/
theorem c6_amended_play_validation :
    (∀ (st : PlayerState) (rec : Recording) (env : useAudioPlayer.PlayEnv),
      env.infoThrew = false →
      (env.info.fexists = false ∨ env.info.size = 0) →
      useAudioPlayer.playSound st rec env
        = ({ st with error := some "File does not exist or is empty" },
           [Eff.getInfo rec.uri]))
    ∧ (∀ (st : SvcState) (uri : JSStr) (env : AudioService.SvcPlayEnv),
      env.info.fexists = false →
      (AudioService.playRecording st uri env).1 = false
      ∧ ∀ u, Eff.createSound u ∉ (AudioService.playRecording st uri env).2.2) := by
  constructor
  · intro st rec env h1 h2
    have hcond : (!env.infoThrew && (!env.info.fexists || env.info.size == 0))
        = true := by
      rcases h2 with h | h <;> simp [h1, h]
    simp [useAudioPlayer.playSound, hcond]
  · intro st uri env h
    by_cases hs : st.sound.isSome <;>
      exact ⟨by simp [AudioService.playRecording, h, hs],
             by intro u; simp [AudioService.playRecording, h, hs]⟩

/-- Witness for `c6_amended_play_validation`: playing a missing file from
the idle player leaves `playingId` null with only an error set. -/
theorem c6_amended_play_validation_witness :
    useAudioPlayer.playSound
        { sound := none, playingId := none, isPlaying := false,
          position := 0, duration := 0, error := none }
        { id := jstr "1", uri := jstr "gone.wav", fileName := jstr "1_1_1.wav",
          duration := some 0, createdAt := some 1 }
        { infoThrew := false, info := { fexists := false, size := 0 },
          createOk := true, newSound := 2 }
      = ({ sound := none, playingId := none, isPlaying := false,
           position := 0, duration := 0,
           error := some "File does not exist or is empty" },
         [Eff.getInfo (jstr "gone.wav")])
    ∧ (AudioService.playRecording { recording := none, sound := none }
        (jstr "gone.wav")
        { info := { fexists := false, size := 0 }, createOk := true,
          newSound := 2 }).1 = false :=
  ⟨c6_amended_play_validation.1 _ _ _ rfl (Or.inl rfl),
   (c6_amended_play_validation.2 _ _ _ rfl).1⟩

/-- C7 counterexample: the hook's stop keeps holding the native sound —
`stopSound` calls only `stopAsync`, never `unloadAsync`, and the `sound`
state still holds the handle afterwards, refuting "the native sound
handle is unloaded/no longer held". -/
theorem c7_counterexample_stop_keeps_handle :
    (useAudioPlayer.stopSound
        { sound := some 7, playingId := some (jstr "x"), isPlaying := true,
          position := 500, duration := 900, error := none } true).1.sound
      = some 7
    ∧ Eff.soundUnload
      ∉ (useAudioPlayer.stopSound
          { sound := some 7, playingId := some (jstr "x"), isPlaying := true,
            position := 500, duration := 900, error := none } true).2 := by
  decide

/-- C7 (amended): with a sound loaded, the hook's stop halts playback,
resets the position to 0 and clears `playingId`/`isPlaying` but retains
the loaded handle (it is only released on unmount or when another clip
is loaded); the service's `stopPlayback` stops, unloads and drops its
handle (it tracks no position or clip id). -/
theorem c7_amended_stop_semantics :
    (∀ (st : PlayerState) (h : Nat), st.sound = some h →
      useAudioPlayer.stopSound st true
        = ({ st with isPlaying := false, playingId := none, position := 0 },
           [Eff.soundStop]))
    ∧ (∀ (st : SvcState) (h : Nat), st.sound = some h →
      AudioService.stopPlayback st true
        = ({ st with sound := none }, [Eff.soundStop, Eff.soundUnload])) := by
  constructor
  · intro st h hs
    simp [useAudioPlayer.stopSound, hs]
  · intro st h hs
    simp [AudioService.stopPlayback, hs]

/-- Witness for `c7_amended_stop_semantics` at a concrete playing state. -/
theorem c7_amended_stop_semantics_witness :
    useAudioPlayer.stopSound
        { sound := some 7, playingId := some (jstr "x"), isPlaying := true,
          position := 500, duration := 900, error := none } true
      = ({ sound := some 7, playingId := none, isPlaying := false,
           position := 0, duration := 900, error := none }, [Eff.soundStop])
    ∧ AudioService.stopPlayback { recording := none, sound := some 3 } true
      = ({ recording := none, sound := none },
         [Eff.soundStop, Eff.soundUnload]) :=
  ⟨c7_amended_stop_semantics.1 _ 7 rfl, c7_amended_stop_semantics.2 _ 3 rfl⟩

/-- C8: deleting a clip.  Service: with a sound loaded (in particular
when the deleted clip is the one playing) the trace opens with
stop-then-unload before anything else, and the handle is dropped; a
missing backing file yields `false` with a warning and no delete call;
an existing file is deleted with `true` returned.  Hook registry: a
found entry has its file deleted and is filtered out of the snapshot
(no entry with that id survives); when `deleteAsync` throws — as it does
for an absent file — the state is returned unchanged and the failure is
logged, never thrown on. -/
theorem c8_delete_clip_behavior :
    (∀ (st : SvcState) (uri : JSStr) (info : FileInfo) (delOk : Bool) (h : Nat),
      st.sound = some h →
      ((AudioService.deleteRecording st uri info true delOk).2.2.take 2
        = [Eff.soundStop, Eff.soundUnload])
      ∧ (AudioService.deleteRecording st uri info true delOk).2.1.sound = none)
    ∧ (∀ (st : SvcState) (uri : JSStr) (info : FileInfo) (stopOk delOk : Bool),
      info.fexists = false →
      (AudioService.deleteRecording st uri info stopOk delOk).1 = false
      ∧ Eff.logWarn "File does not exist, nothing to delete"
          ∈ (AudioService.deleteRecording st uri info stopOk delOk).2.2
      ∧ ∀ p, Eff.deleteFile p
          ∉ (AudioService.deleteRecording st uri info stopOk delOk).2.2)
    ∧ (∀ (st : SvcState) (uri : JSStr) (info : FileInfo) (stopOk : Bool),
      info.fexists = true →
      (AudioService.deleteRecording st uri info stopOk true).1 = true
      ∧ Eff.deleteFile uri
          ∈ (AudioService.deleteRecording st uri info stopOk true).2.2)
    ∧ (∀ (st : HookRecState) (id : JSStr) (r : Recording),
      st.recordings.find? (fun x => x.id == id) = some r →
      (useAudioRecorder.deleteRecording st id true).1.recordings
          = st.recordings.filter (fun x => x.id != id)
      ∧ (∀ x ∈ (useAudioRecorder.deleteRecording st id true).1.recordings,
          x.id ≠ id)
      ∧ Eff.deleteFile r.uri ∈ (useAudioRecorder.deleteRecording st id true).2)
    ∧ (∀ (st : HookRecState) (id : JSStr),
      (useAudioRecorder.deleteRecording st id false).1 = st
      ∧ ∀ r, st.recordings.find? (fun x => x.id == id) = some r →
          Eff.logError "Failed to delete recording"
            ∈ (useAudioRecorder.deleteRecording st id false).2) := by
  refine ⟨?_, ?_, ?_, ?_, ?_⟩
  · intro st uri info delOk h hs
    by_cases hf : info.fexists <;> by_cases hd : delOk <;>
      exact ⟨by simp [AudioService.deleteRecording, AudioService.stopPlayback,
                      hs, hf, hd],
             by simp [AudioService.deleteRecording, AudioService.stopPlayback,
                      hs, hf, hd]⟩
  · intro st uri info stopOk delOk hf
    rcases hsound : st.sound with _ | h
    · refine ⟨?_, ?_, fun p => ?_⟩ <;>
        simp [AudioService.deleteRecording, AudioService.stopPlayback,
              hsound, hf]
    · by_cases hok : stopOk <;>
        exact ⟨by simp [AudioService.deleteRecording, AudioService.stopPlayback,
                        hsound, hf, hok],
               by simp [AudioService.deleteRecording, AudioService.stopPlayback,
                        hsound, hf, hok],
               fun p => by
                 simp [AudioService.deleteRecording, AudioService.stopPlayback,
                       hsound, hf, hok]⟩
  · intro st uri info stopOk hf
    rcases hsound : st.sound with _ | h
    · exact ⟨by simp [AudioService.deleteRecording, AudioService.stopPlayback,
                      hsound, hf],
             by simp [AudioService.deleteRecording, AudioService.stopPlayback,
                      hsound, hf]⟩
    · by_cases hok : stopOk <;>
        exact ⟨by simp [AudioService.deleteRecording, AudioService.stopPlayback,
                        hsound, hf, hok],
               by simp [AudioService.deleteRecording, AudioService.stopPlayback,
                        hsound, hf, hok]⟩
  · intro st id r hfind
    refine ⟨by simp [useAudioRecorder.deleteRecording, hfind], ?_, ?_⟩
    · intro x hx
      have hx' : x ∈ st.recordings.filter (fun x => x.id != id) := by
        simpa [useAudioRecorder.deleteRecording, hfind] using hx
      have := (List.mem_filter.mp hx').2
      simpa [bne_iff_ne] using this
    · simp [useAudioRecorder.deleteRecording, hfind]
  · intro st id
    rcases hfind : st.recordings.find? (fun x => x.id == id) with _ | r
    · exact ⟨by simp [useAudioRecorder.deleteRecording, hfind],
             fun r hr => by rw [hfind] at hr; cases hr⟩
    · exact ⟨by simp [useAudioRecorder.deleteRecording, hfind],
             fun r' hr => by simp [useAudioRecorder.deleteRecording, hfind]⟩

/-- Witness for `c8_delete_clip_behavior` at concrete states. -/
theorem c8_delete_clip_behavior_witness :
    ((AudioService.deleteRecording { recording := none, sound := some 3 }
        (jstr "u.wav") { fexists := true, size := 4 } true true).2.2.take 2
      = [Eff.soundStop, Eff.soundUnload])
    ∧ (AudioService.deleteRecording { recording := none, sound := none }
        (jstr "u.wav") { fexists := false, size := 0 } true true).1 = false
    ∧ (AudioService.deleteRecording { recording := none, sound := none }
        (jstr "u.wav") { fexists := true, size := 4 } true true).1 = true
    ∧ (useAudioRecorder.deleteRecording
        { recording := none,
          recordings := [{ id := jstr "1", uri := jstr "u1.wav",
                           fileName := jstr "1_1_1.wav",
                           duration := some 0, createdAt := some 1 }],
          isRecording := false, permissionResponse := none,
          recordingDuration := 0, startTime := none }
        (jstr "1") true).1.recordings = []
    ∧ (useAudioRecorder.deleteRecording
        { recording := none,
          recordings := [{ id := jstr "1", uri := jstr "u1.wav",
                           fileName := jstr "1_1_1.wav",
                           duration := some 0, createdAt := some 1 }],
          isRecording := false, permissionResponse := none,
          recordingDuration := 0, startTime := none }
        (jstr "1") false).1.recordings
      = [{ id := jstr "1", uri := jstr "u1.wav", fileName := jstr "1_1_1.wav",
           duration := some 0, createdAt := some 1 }] := by
  refine ⟨(c8_delete_clip_behavior.1 _ _ _ _ 3 rfl).1,
          (c8_delete_clip_behavior.2.1 _ _ _ _ _ rfl).1,
          (c8_delete_clip_behavior.2.2.1 _ _ _ _ rfl).1,
          ?_, ?_⟩
  · have := (c8_delete_clip_behavior.2.2.2.1
      { recording := none,
        recordings := [{ id := jstr "1", uri := jstr "u1.wav",
                         fileName := jstr "1_1_1.wav",
                         duration := some 0, createdAt := some 1 }],
        isRecording := false, permissionResponse := none,
        recordingDuration := 0, startTime := none }
      (jstr "1")
      { id := jstr "1", uri := jstr "u1.wav", fileName := jstr "1_1_1.wav",
        duration := some 0, createdAt := some 1 } (by decide)).1
    rw [this]
    decide
  · have := (c8_delete_clip_behavior.2.2.2.2
      { recording := none,
        recordings := [{ id := jstr "1", uri := jstr "u1.wav",
                         fileName := jstr "1_1_1.wav",
                         duration := some 0, createdAt := some 1 }],
        isRecording := false, permissionResponse := none,
        recordingDuration := 0, startTime := none }
      (jstr "1")).1
    rw [this]

/-- C9: after a refresh, the registry list is a permutation of the
decoded directory entries, sorted by `createdAt` descending (whenever
every entry carries a valid date, which is what "sorted by `createdAt`"
presupposes), and entries with equal timestamps keep their original
relative order (the sublist at any fixed timestamp is unchanged) — in
the hook's `loadRecordings` and the service's `getRecordings` alike. -/
theorem c9_refresh_sorted_stable :
    ∀ (files : List JSStr) (now : Int),
    ((useAudioRecorder.loadRecordings true files now).1.Perm
        (useAudioRecorder.decodedList files now))
    ∧ (∀ t : Int,
        (useAudioRecorder.loadRecordings true files now).1.filter
            (fun r => r.createdAt == some t)
          = (useAudioRecorder.decodedList files now).filter
              (fun r => r.createdAt == some t))
    ∧ ((∀ r ∈ useAudioRecorder.decodedList files now,
          r.createdAt.isSome = true) →
        (useAudioRecorder.loadRecordings true files now).1.Pairwise
          (fun a b => b.createdAt.getD 0 ≤ a.createdAt.getD 0))
    ∧ ((AudioService.getRecordings true files now).1.Perm
        (AudioService.decodedList files now))
    ∧ (∀ t : Int,
        (AudioService.getRecordings true files now).1.filter
            (fun a => a.createdAt == some t)
          = (AudioService.decodedList files now).filter
              (fun a => a.createdAt == some t))
    ∧ ((∀ a ∈ AudioService.decodedList files now, a.createdAt.isSome = true) →
        (AudioService.getRecordings true files now).1.Pairwise
          (fun a b => b.createdAt.getD 0 ≤ a.createdAt.getD 0)) := by
  intro files now
  have hload : (useAudioRecorder.loadRecordings true files now).1
      = sortByTimeDesc (fun r => r.createdAt)
          (useAudioRecorder.decodedList files now) := rfl
  by_cases he : (files.filter (fun f => (jstr ".wav").isSuffixOf f)).isEmpty
  · have hnil : AudioService.decodedList files now = [] := by
      unfold AudioService.decodedList
      rw [List.isEmpty_iff.mp he]
      rfl
    have hsvc : (AudioService.getRecordings true files now).1 = [] := by
      unfold AudioService.getRecordings
      simp only [he]
      rfl
    refine ⟨?_, ?_, ?_, ?_, ?_, ?_⟩
    · rw [hload]; exact sortByTimeDesc_perm _ _
    · intro t; rw [hload]; exact filter_sortByTimeDesc _ t _
    · intro hv; rw [hload]; exact pairwise_sortByTimeDesc _ _ hv
    · rw [hsvc, hnil]
    · intro t; rw [hsvc, hnil]
    · intro _; rw [hsvc]; exact List.Pairwise.nil
  · have hsvc : (AudioService.getRecordings true files now).1
        = sortByTimeDesc (fun a => a.createdAt)
            (AudioService.decodedList files now) := by
      unfold AudioService.getRecordings
      simp only [he]
      rfl
    refine ⟨?_, ?_, ?_, ?_, ?_, ?_⟩
    · rw [hload]; exact sortByTimeDesc_perm _ _
    · intro t; rw [hload]; exact filter_sortByTimeDesc _ t _
    · intro hv; rw [hload]; exact pairwise_sortByTimeDesc _ _ hv
    · rw [hsvc]; exact sortByTimeDesc_perm _ _
    · intro t; rw [hsvc]; exact filter_sortByTimeDesc _ t _
    · intro hv; rw [hsvc]; exact pairwise_sortByTimeDesc _ _ hv

/-- Witness for `c9_refresh_sorted_stable` on a concrete listing with a
duplicate timestamp. -/
theorem c9_refresh_sorted_stable_witness :
    (useAudioRecorder.loadRecordings true
        [jstr "b_2.wav", jstr "a_5.wav", jstr "c_2.wav"] 0).1.Pairwise
      (fun a b => b.createdAt.getD 0 ≤ a.createdAt.getD 0)
    ∧ (AudioService.getRecordings true
        [jstr "b_2.wav", jstr "a_5.wav", jstr "c_2.wav"] 0).1.Pairwise
      (fun a b => b.createdAt.getD 0 ≤ a.createdAt.getD 0) :=
  ⟨(c9_refresh_sorted_stable [jstr "b_2.wav", jstr "a_5.wav", jstr "c_2.wav"]
      0).2.2.1 (by decide),
   (c9_refresh_sorted_stable [jstr "b_2.wav", jstr "a_5.wav", jstr "c_2.wav"]
      0).2.2.2.2.2 (by decide)⟩
